import Mathlib

/-!
Verification development for the hospital-cleaning coverage/scoring backend.

The Python source is shallowly embedded: floats become rationals (`ℚ`),
integer grids become `List (List ℤ)`, numpy elementwise operations become
list traversals, and fallible paths become `Option`/`Except`.
-/

set_option maxRecDepth 4000

namespace Clean

/-- Risk labels used per cell (`RISK_ORDER` in `backend/app.py`). -/
inductive Risk where
  | critical
  | high
  | medium
  | low
  | clear
deriving DecidableEq, Repr

/-- `risk_level(coverage, high_touch)` from `backend/app.py`:
the first matching rule of the cascade fires. -/
def riskLevel (coverage : ℕ) (highTouch : Bool) : Risk :=
  if highTouch ∧ coverage = 0 then .critical
  else if highTouch ∧ coverage = 1 then .high
  else if ¬highTouch ∧ coverage = 0 then .medium
  else if highTouch ∧ coverage ≥ 2 then .low
  else .clear

/-- Per-cell risk over a coverage grid and a high-touch mask
(as computed cell-by-cell by `analyze_session` in `backend/app.py`). -/
def riskGrid (g : List (List ℕ)) (m : List (List ℕ)) : List (List Risk) :=
  g.zipWith (fun row mrow => row.zipWith (fun c h => riskLevel c (h = 1)) mrow) m

/-- `clamp(x)` with default bounds from `analytics/scoring.py`. -/
def clamp01 (x : ℚ) : ℚ := max 0 (min 1 x)

/-- `compute_quality_score` from `analytics/scoring.py`; returns
(score, flags) with flags in the order the Python code appends them. -/
def computeQualityScore (coveragePercent : ℚ) (highTouchCoveragePercent : Option ℚ)
    (overwipeRatio : ℚ) (uniformityStd : ℚ) (durationS : ℚ) : ℚ × List String :=
  let coverageScore := clamp01 (coveragePercent / 100)
  let highTouchScore :=
    match highTouchCoveragePercent with
    | none => coverageScore
    | some p => clamp01 (p / 100)
  let flags0 : List String :=
    match highTouchCoveragePercent with
    | none => ["no_high_touch_mask"]
    | some _ => []
  let overwipeScore := clamp01 (1 - overwipeRatio / (20/100))
  let uniformityScore := clamp01 (1 - uniformityStd / 5)
  let rushingPenalty : ℚ := if durationS < 30 ∧ coveragePercent < 70 then 15 else 0
  let flags1 := flags0 ++
    (if durationS < 30 ∧ coveragePercent < 70 then ["rushed"] else [])
  let flags2 := flags1 ++
    (match highTouchCoveragePercent with
     | some p => if p < 70 then ["missed_high_touch"] else []
     | none => [])
  let flags3 := flags2 ++ (if overwipeRatio > 10/100 then ["overwiping"] else [])
  let raw := 100 * (35/100 * coverageScore + 35/100 * highTouchScore +
    15/100 * overwipeScore + 15/100 * uniformityScore)
  let quality := max 0 (min 100 (raw - rushingPenalty))
  (quality, flags3)

/-- The raw weighted score exactly as the spec writes it, for the
refinement comparison in claim C2. -/
def rawScoreSpec (coveragePercent : ℚ) (highTouchCoveragePercent : Option ℚ)
    (overwipeRatio : ℚ) (uniformityStd : ℚ) : ℚ :=
  let covTerm := clamp01 (coveragePercent / 100)
  let htTerm :=
    match highTouchCoveragePercent with
    | none => covTerm
    | some p => clamp01 (p / 100)
  100 * (35/100 * covTerm + 35/100 * htTerm +
    15/100 * clamp01 (1 - overwipeRatio / (20/100)) +
    15/100 * clamp01 (1 - uniformityStd / 5))

/-- The full spec-side score: raw minus a flat 15-point rushing penalty
when duration < 30 and coverage < 70, clamped to [0,100]. -/
def qualityScoreSpec (coveragePercent : ℚ) (highTouchCoveragePercent : Option ℚ)
    (overwipeRatio : ℚ) (uniformityStd : ℚ) (durationS : ℚ) : ℚ :=
  let raw := rawScoreSpec coveragePercent highTouchCoveragePercent overwipeRatio uniformityStd
  let penalty : ℚ := if durationS < 30 ∧ coveragePercent < 70 then 15 else 0
  max 0 (min 100 (raw - penalty))

/-! ### Grid discretizer (`_heatmap_to_grid` in `camera_stream.py`) -/

/-- Normalization of one endpoint of a Python slice `a[i:j]` over a list
of length `n`: negative indices count from the end, then clamp to `[0,n]`. -/
def pyIdx (n : ℕ) (i : ℤ) : ℕ :=
  if i < 0 then (i + n).toNat else min n i.toNat

/-- Python / numpy slice `l[i:j]`. -/
def pyslice {α : Type} (l : List α) (i j : ℤ) : List α :=
  (l.take (pyIdx l.length j)).drop (pyIdx l.length i)

/-- Python's `round` to an integer: round half to even (used on the
cell mean in `_heatmap_to_grid`). -/
def pyRound (q : ℚ) : ℤ :=
  if q - ⌊q⌋ < 1/2 then ⌊q⌋
  else if (1:ℚ)/2 < q - ⌊q⌋ then ⌊q⌋ + 1
  else if ⌊q⌋ % 2 = 0 then ⌊q⌋ else ⌊q⌋ + 1

/-- Width of a 2-D array embedded as a list of rows (`shape[1]`;
meaningful for rectangular inputs). -/
def matWidth {α : Type} (g : List (List α)) : ℕ := (g.headD []).length

/-- A list-of-rows matrix is rectangular with the width of its first row. -/
def rect {α : Type} (g : List (List α)) : Prop :=
  ∀ row ∈ g, row.length = matWidth g

instance {α : Type} (g : List (List α)) : Decidable (rect g) := by
  unfold rect; infer_instance

/-- The `roi` of `_heatmap_to_grid`: the heatmap cropped to the box after
`x1,y1 = max(0,·)` and `x2,y2 = min(bound,·)`, with Python slice semantics. -/
def cropToBox (heat : List (List ℚ)) (box : ℤ × ℤ × ℤ × ℤ) : List (List ℚ) :=
  match box with
  | (bx1, by1, bx2, by2) =>
    let x1 := max 0 bx1
    let y1 := max 0 by1
    let x2 := min ((matWidth heat : ℤ)) bx2
    let y2 := min ((heat.length : ℤ)) by2
    (pyslice heat y1 y2).map (fun row => pyslice row x1 x2)

/-- One output cell of `_heatmap_to_grid`: the rounded, ×10-scaled mean of
`roi[ys:ye, xs:xe]`, 0 when that sub-block is empty. -/
def cellValue (roi : List (List ℚ)) (ys ye xs xe : ℕ) : ℤ :=
  let vals := (((roi.take ye).drop ys).map
    (fun row => (row.take xe).drop xs)).flatten
  if vals.length = 0 then 0
  else pyRound ((vals.sum / (vals.length : ℚ)) * 10)

/-- The discretizer parametrized by the rule giving a cell size from
(crop extent, grid extent); the source uses `max 1 (h / gh)`, the claim's
words use `h / gh`. -/
def heatmapToGridCore (cellFn : ℕ → ℕ → ℕ) (heat : List (List ℚ))
    (box : ℤ × ℤ × ℤ × ℤ) (gh gw : ℕ) : List (List ℤ) :=
  let roi := cropToBox heat box
  let h := roi.length
  let w := matWidth roi
  if h = 0 ∨ w = 0 then
    List.replicate gh (List.replicate gw 0)
  else
    let cellH := cellFn h gh
    let cellW := cellFn w gw
    (List.range gh).map (fun r =>
      (List.range gw).map (fun c =>
        cellValue roi (r * cellH) (if r < gh - 1 then (r + 1) * cellH else h)
          (c * cellW) (if c < gw - 1 then (c + 1) * cellW else w)))

/-- `_heatmap_to_grid` as written in `camera_stream.py`:
`cell_h = max(1, h // grid_h)`, `cell_w = max(1, w // grid_w)`. -/
def heatmapToGrid (heat : List (List ℚ)) (box : ℤ × ℤ × ℤ × ℤ)
    (gh gw : ℕ) : List (List ℤ) :=
  heatmapToGridCore (fun a b => max 1 (a / b)) heat box gh gw

/-- The discretizer as claim C3 words it: plain integer cell sizes
`cell_h = floor(height/gh)`, `cell_w = floor(width/gw)`. -/
def heatmapToGridSpec (heat : List (List ℚ)) (box : ℤ × ℤ × ℤ × ℤ)
    (gh gw : ℕ) : List (List ℤ) :=
  heatmapToGridCore (fun a b => a / b) heat box gh gw

/-- The discretizer as the amended claim words it: integer cell sizes
`cell_h = max(1, floor(height/gh))`, `cell_w = max(1, floor(width/gw))`. -/
def heatmapToGridSpecAmended (heat : List (List ℚ)) (box : ℤ × ℤ × ℤ × ℤ)
    (gh gw : ℕ) : List (List ℤ) :=
  heatmapToGridCore (fun a b => max 1 (a / b)) heat box gh gw

/-! ### Aggregate metrics (`analytics/metrics.py`) -/

/-- Number of entries of a list-of-rows matrix satisfying `p`. -/
def matCount (p : ℤ → Bool) (g : List (List ℤ)) : ℕ :=
  (g.map (fun row => row.countP p)).sum

/-- Total number of entries (`size` of the numpy array, for rectangular input). -/
def matSize {α : Type} (g : List (List α)) : ℕ := (g.map List.length).sum

/-- `compute_coverage_percent`: mean of the covered-cell indicator, times 100. -/
def computeCoveragePercent (g : List (List ℤ)) : ℚ :=
  ((matCount (fun v => 0 < v) g : ℚ) / (matSize g : ℚ)) * 100

/-- `M.sum()` over the mask matrix. -/
def maskSum (M : List (List ℤ)) : ℤ := (M.map List.sum).sum

/-- `(C * M).sum()`: the elementwise product of the covered indicator with
the mask, summed. -/
def covHtSum (g M : List (List ℤ)) : ℤ :=
  (g.zipWith (fun grow mrow =>
    (grow.zipWith (fun v h => (if 0 < v then (1 : ℤ) else 0) * h) mrow).sum) M).sum

/-- `compute_high_touch_coverage_percent`: `None` when the mask is absent or
its entry sum is ≤ 0, else the covered∩high-touch fraction times 100. -/
def computeHighTouchCoveragePercent (g : List (List ℤ))
    (m : Option (List (List ℤ))) : Option ℚ :=
  match m with
  | none => none
  | some M =>
    let denom : ℚ := (maskSum M : ℚ)
    if denom ≤ 0 then none
    else some ((covHtSum g M : ℚ) / denom * 100)

/-- `compute_overwipe_ratio`: fraction of cells with count ≥ threshold. -/
def computeOverwipeRatio (g : List (List ℤ)) (threshold : ℤ) : ℚ :=
  (matCount (fun v => threshold ≤ v) g : ℚ) / (matSize g : ℚ)

/-- Population variance of the grid entries (`G.std()` squared; numpy's
`std` is its square root, which is irrational in general and is therefore
kept as an uninterpreted parameter where the pipeline consumes it). -/
def computeUniformityVar (g : List (List ℤ)) : ℚ :=
  let n : ℚ := matSize g
  let mean := ((g.map List.sum).sum : ℤ) / n
  ((g.map (fun row => (row.map (fun v => ((v : ℚ) - mean)^2)).sum)).sum) / n

/-! ### Missed-zone ranker (`analytics/missed_zones.py`) -/

/-- One ranked entry `{r, c, priority}`; `highPri = true` stands for the
string `"high_touch"`, `false` for `"normal"`. -/
structure MissedCell where
  r : ℕ
  c : ℕ
  highPri : Bool
deriving DecidableEq, Repr

/-- All cell coordinates of an `h × w` grid in row-major scan order
(the order `np.argwhere` reports and the Python loops use). -/
def cellsRowMajor (h w : ℕ) : List (ℕ × ℕ) :=
  (List.range h).flatMap (fun r => (List.range w).map (fun c => (r, c)))

/-- Entry of a list-of-rows integer matrix at `(r, c)` (in-bounds use only). -/
def gridAt (g : List (List ℤ)) (rc : ℕ × ℕ) : ℤ :=
  (g.getD rc.1 []).getD rc.2 0

/-- The `high_touch`-priority entries: the row-major coordinates where
`missed * M == 1` (`np.argwhere`), each turned into an entry dict. -/
def hiMissedList (g M : List (List ℤ)) : List MissedCell :=
  ((cellsRowMajor g.length (matWidth g)).filter
    (fun rc => decide (¬ 0 < gridAt g rc ∧ gridAt M rc = 1))).map
    (fun rc => ⟨rc.1, rc.2, true⟩)

/-- The `normal` candidates: the row-major missed coordinates not already
listed among the given high-touch items, each turned into an entry dict. -/
def normalMissedList (g : List (List ℤ)) (hiItems : List MissedCell) : List MissedCell :=
  ((cellsRowMajor g.length (matWidth g)).filter
    (fun rc => decide (¬ 0 < gridAt g rc) &&
      !(hiItems.any (fun e => e.r == rc.1 && e.c == rc.2)))).map
    (fun rc => ⟨rc.1, rc.2, false⟩)

/-- `top_missed_cells`: `none` models the `ValueError` raised by unpacking
`missed.shape` when the grid is the empty list (a 1-D empty array). -/
def topMissedCells (g : List (List ℤ)) (m : Option (List (List ℤ)))
    (k : ℕ) : Option (List MissedCell) :=
  if g.isEmpty then none
  else
    let hiItems : List MissedCell :=
      match m with
      | none => []
      | some M => hiMissedList g M
    some (if hiItems.length < k then
      hiItems ++ (normalMissedList g hiItems).take (k - hiItems.length)
    else hiItems.take k)

/-! ### Scoring pipeline and ingestion boundary
(`analytics/pipeline.py`, `main.py::ingest_session`) -/

/-- The metrics record assembled by `run_pipeline` (the always-`None`
cluster/risk placeholders are omitted). -/
structure MetricsOut where
  coveragePercent : ℚ
  highTouchCoveragePercent : Option ℚ
  overwipeRatio : ℚ
  uniformityStd : ℚ
  wipeEventsCount : Option ℕ
  qualityScore : ℚ
  missedCells : List MissedCell
  flags : List String
deriving DecidableEq, Repr

/-- `run_pipeline`; `sqrtFn` is the uninterpreted square root applied to the
variance (numpy's float `std`). `none` models an exception escaping from
`top_missed_cells`. -/
def runPipeline (sqrtFn : ℚ → ℚ) (g : List (List ℤ)) (m : Option (List (List ℤ)))
    (wipeEvents : Option (List Unit)) (durationS : ℚ)
    (overwipeThreshold : ℤ) : Option MetricsOut :=
  let coveragePercent := computeCoveragePercent g
  let highTouchCov := computeHighTouchCoveragePercent g m
  let overwipeRatio := computeOverwipeRatio g overwipeThreshold
  let uniformityStd := sqrtFn (computeUniformityVar g)
  let wipeEventsCount := wipeEvents.map List.length
  match topMissedCells g m 15 with
  | none => none
  | some missedCells =>
    let qf := computeQualityScore coveragePercent highTouchCov overwipeRatio
      uniformityStd durationS
    some { coveragePercent := coveragePercent,
           highTouchCoveragePercent := highTouchCov,
           overwipeRatio := overwipeRatio,
           uniformityStd := uniformityStd,
           wipeEventsCount := wipeEventsCount,
           qualityScore := qf.1,
           missedCells := missedCells,
           flags := qf.2 }

/-- The ingestion payload (`SessionIngestPayload` in `schemas.py`);
timestamps are modelled as rational epoch seconds, wipe events as opaque
tokens. `grid_h`/`grid_w` are plain (possibly negative) integers. -/
structure IngestPayload where
  sessionId : String
  surfaceId : String
  surfaceType : String
  roomId : Option String
  cleanerId : Option String
  startTime : ℚ
  endTime : ℚ
  gridH : ℤ
  gridW : ℤ
  coverageCountGrid : List (List ℤ)
  highTouchMask : Option (List (List ℤ))
  wipeEvents : Option (List Unit)
  cameraId : Option String
deriving Repr

/-- How `ingest_session` can fail: the four explicit `HTTPException`
rejections, plus an unhandled exception (HTTP 500) escaping the handler. -/
inductive IngestError where
  | endBeforeStart
  | gridHeightMismatch
  | gridWidthMismatch
  | maskShapeMismatch
  | duplicateSession
  | internalError
deriving DecidableEq, Repr

/-- What a successful ingestion persists: session row, grid row, metrics row. -/
structure IngestResult where
  sessionId : String
  cleanerId : String
  durationS : ℚ
  storedGrid : List (List ℤ)
  storedMask : Option (List (List ℤ))
  metrics : MetricsOut
deriving Repr

/-- `ingest_session` from `main.py`: validation checks in source order, then
storage and scoring. `anonFn` is the uninterpreted `anon_id` hash,
`existing` the session ids already present in the database. -/
def ingestSession (sqrtFn : ℚ → ℚ) (anonFn : Option String → String)
    (existing : List String) (payload : IngestPayload) :
    Except IngestError IngestResult :=
  let durationS := payload.endTime - payload.startTime
  if durationS < 0 then .error .endBeforeStart
  else if (payload.coverageCountGrid.length : ℤ) ≠ payload.gridH then
    .error .gridHeightMismatch
  else if payload.coverageCountGrid.any
      (fun row => (row.length : ℤ) != payload.gridW) then
    .error .gridWidthMismatch
  else if (match payload.highTouchMask with
    | some msk => (msk.length : ℤ) != payload.gridH ||
        msk.any (fun row => (row.length : ℤ) != payload.gridW)
    | none => false) then
    .error .maskShapeMismatch
  else if payload.sessionId ∈ existing then .error .duplicateSession
  else
    let wipe :=
      match payload.wipeEvents with
      | some l => if l.isEmpty then none else some l
      | none => none
    match runPipeline sqrtFn payload.coverageCountGrid payload.highTouchMask
        wipe durationS 3 with
    | none => .error .internalError
    | some metrics =>
      .ok { sessionId := payload.sessionId,
            cleanerId := anonFn payload.cleanerId,
            durationS := durationS,
            storedGrid := payload.coverageCountGrid,
            storedMask := payload.highTouchMask,
            metrics := metrics }

/-! ### Session state machine and heatmap accumulator (`camera_stream.py`) -/

/-- Module constants from `camera_stream.py`. -/
def ROOM_ID : String := "ICU_12"

def SURFACE_TYPE : String := "tray"

def SURFACE_ID : String := "TRAY_1"

def CLEANER_ID : String := "arthur"

def CAMERA_ID : String := "WEBCAM_1"

/-- `SURFACE_PROFILES.get(t, SURFACE_PROFILES["tray"])`: (grid_h, grid_w). -/
def surfaceProfile (t : String) : ℕ × ℕ :=
  if t = "tray" then (20, 30)
  else if t = "bedrail" then (10, 40)
  else if t = "handle" then (12, 12)
  else (20, 30)

/-- `_make_high_touch_mask(surface_type, H, W)`. -/
def makeHighTouchMask (surfaceType : String) (H W : ℕ) : List (List ℤ) :=
  (List.range H).map (fun r => (List.range W).map (fun c =>
    if surfaceType = "tray" then (if r < 3 ∨ c < 3 then 1 else 0)
    else if surfaceType = "bedrail" then (if c < 5 ∨ W - 5 ≤ c then 1 else 0)
    else (if H / 3 ≤ r ∧ r < 2 * H / 3 ∧ W / 3 ≤ c ∧ c < 2 * W / 3 then 1 else 0)))

/-- The mutable `_state` dictionary of `camera_stream.py` as a record. -/
structure CamState where
  coveragePercent : ℚ
  highTouchDone : Bool
  recording : Bool
  finished : Bool
  heatMap : Option (List (List ℚ))
  tableMask : Option (List (List Bool))
  tableBoxes : List (ℤ × ℤ × ℤ × ℤ)
  sessionId : Option String
  startTimeUtc : Option ℚ
  startTime : Option ℚ
deriving DecidableEq, Repr

/-- The initial `_state` value. -/
def initialCamState : CamState :=
  { coveragePercent := 0, highTouchDone := false, recording := false,
    finished := false, heatMap := none, tableMask := none, tableBoxes := [],
    sessionId := none, startTimeUtc := none, startTime := none }

/-- Pixel membership in the rasterized filled rectangle union drawn by
`cv2.rectangle(mask, (x1,y1), (x2,y2), 255, -1)` (both corners inclusive). -/
def rasterizeBoxes (frameH frameW : ℕ) (boxes : List (ℤ × ℤ × ℤ × ℤ)) :
    List (List Bool) :=
  (List.range frameH).map (fun r => (List.range frameW).map (fun c =>
    boxes.any (fun b =>
      decide (min b.1 b.2.2.1 ≤ (c : ℤ) ∧ (c : ℤ) ≤ max b.1 b.2.2.1 ∧
        min b.2.1 b.2.2.2 ≤ (r : ℤ) ∧ (r : ℤ) ≤ max b.2.1 b.2.2.2))))

/-- The all-zero heatmap `np.zeros(frame_shape[:2], dtype=np.float32)`. -/
def zeroHeat (frameH frameW : ℕ) : List (List ℚ) :=
  List.replicate frameH (List.replicate frameW 0)

/-- `start_session(frame_shape, preview_boxes)`: returns the Python result
together with the state after the call. -/
def startSession (frameH frameW : ℕ) (previewBoxes : List (ℤ × ℤ × ℤ × ℤ))
    (freshId : String) (nowUtc now : ℚ) (s : CamState) : Bool × CamState :=
  if s.recording ∨ previewBoxes.isEmpty then (false, s)
  else
    (true,
     { coveragePercent := 0, highTouchDone := false, recording := true,
       finished := false, heatMap := some (zeroHeat frameH frameW),
       tableMask := some (rasterizeBoxes frameH frameW previewBoxes),
       tableBoxes := previewBoxes, sessionId := some freshId,
       startTimeUtc := some nowUtc, startTime := some now })

/-- Area `(x2-x1)*(y2-y1)` of a box, the key used by
`max(table_boxes, key=...)`. -/
def boxArea (b : ℤ × ℤ × ℤ × ℤ) : ℤ := (b.2.2.1 - b.1) * (b.2.2.2 - b.2.1)

/-- Python's `max(boxes, key=area)`: the first box of maximal area,
`none` on an empty list (where Python raises `ValueError`). -/
def maxAreaBox (boxes : List (ℤ × ℤ × ℤ × ℤ)) : Option (ℤ × ℤ × ℤ × ℤ) :=
  boxes.foldl (fun acc b =>
    match acc with
    | none => some b
    | some best => if boxArea best < boxArea b then some b else some best) none

/-- `stop_session()`: `none` models an exception escaping the handler
(impossible from states reachable through `start_session`); otherwise the
Python result, the state after the final reset block, and the payload
handed to `_post_session`. -/
def stopSession (nowUtc _now : ℚ) (s : CamState) :
    Option (Bool × CamState × Option IngestPayload) :=
  if ¬ s.recording then some (false, s, none)
  else
    match s.heatMap, s.startTimeUtc, s.startTime, s.sessionId,
        maxAreaBox s.tableBoxes with
    | some heat, some t0utc, some _t0, some sid, some chosen =>
      let prof := surfaceProfile SURFACE_TYPE
      let grid := heatmapToGrid heat chosen prof.1 prof.2
      let highTouch := makeHighTouchMask SURFACE_TYPE prof.1 prof.2
      let payload : IngestPayload :=
        { sessionId := sid, surfaceId := SURFACE_ID,
          surfaceType := SURFACE_TYPE, roomId := some ROOM_ID,
          cleanerId := some CLEANER_ID, startTime := t0utc,
          endTime := nowUtc, gridH := (prof.1 : ℤ), gridW := (prof.2 : ℤ),
          coverageCountGrid := grid, highTouchMask := some highTouch,
          wipeEvents := some [], cameraId := some CAMERA_ID }
      some (true, initialCamState, some payload)
    | _, _, _, _, _ => none

/-- Membership of pixel `(r, c)` (row, column) in the filled contact disk
of `cv2.circle(circle, palm, radius, 255, -1)` with `palm = (x, y)`. -/
def inDisk (palm : ℤ × ℤ) (radius : ℤ) (r c : ℕ) : Prop :=
  ((c : ℤ) - palm.1) ^ 2 + ((r : ℤ) - palm.2) ^ 2 ≤ radius ^ 2

instance (palm : ℤ × ℤ) (radius : ℤ) (r c : ℕ) : Decidable (inDisk palm radius r c) := by
  unfold inDisk; infer_instance

/-- Entry of the boolean surface mask at `(r, c)` (false off the grid). -/
def maskAt (m : List (List Bool)) (r c : ℕ) : Bool := (m.getD r []).getD c false

/-- `_update_heatmap`: add the 0.02 step on the disk∩mask intersection,
then clip every pixel of the heatmap to [0, 1]. -/
def updateHeatmap (heat : List (List ℚ)) (mask : List (List Bool))
    (palm : ℤ × ℤ) (radius : ℤ) : List (List ℚ) :=
  heat.mapIdx (fun r row => row.mapIdx (fun c v =>
    let v' := if inDisk palm radius r c ∧ maskAt mask r c then v + 2/100 else v
    max 0 (min 1 v')))

/-- Entry of a rational heat matrix at `(r, c)` (0 off the grid). -/
def heatAt (heat : List (List ℚ)) (r c : ℕ) : ℚ := (heat.getD r []).getD c 0

/-! ### Room aggregation (`routes_room_agg.py`)

A retrieved session is modelled by its grid lookup result: `none` when no
`SessionGrid` row exists or its `coverage_count_grid` is falsy (empty),
`some g` otherwise. -/

/-- `(h, w)` shape of a list-of-rows matrix (rectangular use). -/
def gridShape (g : List (List ℤ)) : ℕ × ℕ := (g.length, matWidth g)

/-- The grids that pass `if g and g.coverage_count_grid`. -/
def usableGrids (sessions : List (Option (List (List ℤ)))) :
    List (List (List ℤ)) :=
  sessions.filterMap (fun og =>
    match og with
    | some g => if g.isEmpty then none else some g
    | none => none)

/-- Output of `/rooms/{room_id}/most_touched`. -/
structure TouchedOut where
  sessionsFound : ℕ
  sessionsUsed : ℕ
  gridH : ℕ
  gridW : ℕ
  topTouched : List ((ℕ × ℕ) × ℤ)
deriving DecidableEq, Repr

/-- `most_touched`: sum the shape-matched grids elementwise, list every
cell with its summed count, sort descending (stable), keep the top `k`. -/
def mostTouched (sessions : List (Option (List (List ℤ)))) (k : ℕ) :
    Except String TouchedOut :=
  if sessions.isEmpty then .error "no sessions found for room+surface_type"
  else
    match usableGrids sessions with
    | [] => .error "no grids found for those sessions"
    | g0 :: rest =>
      let shape := gridShape g0
      let matched := (g0 :: rest).filter (fun G => gridShape G == shape)
      let items := (cellsRowMajor shape.1 shape.2).map
        (fun rc => (rc, (matched.map (fun G => gridAt G rc)).sum))
      let sorted := items.mergeSort (fun a b => b.2 ≤ a.2)
      .ok { sessionsFound := sessions.length, sessionsUsed := matched.length,
            gridH := shape.1, gridW := shape.2, topTouched := sorted.take k }

/-- `freq[key] = freq.get(key, 0) + 1` on an insertion-ordered association
list, mirroring a Python dict (update keeps the position, a new key is
appended at the end). -/
def bumpFreq (l : List ((ℕ × ℕ) × ℕ)) (key : ℕ × ℕ) : List ((ℕ × ℕ) × ℕ) :=
  match l with
  | [] => [(key, 1)]
  | (k, v) :: rest =>
    if k = key then (k, v + 1) :: rest else (k, v) :: bumpFreq rest key

/-- One step of the per-session accumulation loop shared by
`most_disregarded` and `overwiped_hotspots`: the state is the frequency
dict (as an insertion-ordered association list), the `used` counter and
the reference shape. `p G rc` is the per-cell mark condition. -/
def freqStep (p : List (List ℤ) → ℕ × ℕ → Bool)
    (st : List ((ℕ × ℕ) × ℕ) × ℕ × Option (ℕ × ℕ))
    (og : Option (List (List ℤ))) : List ((ℕ × ℕ) × ℕ) × ℕ × Option (ℕ × ℕ) :=
  match og with
  | none => st
  | some G =>
    if G.isEmpty then st
    else
      let sh := st.2.2.getD (gridShape G)
      if gridShape G ≠ sh then (st.1, st.2.1, some sh)
      else
        let marked := (cellsRowMajor (gridShape G).1 (gridShape G).2).filter
          (fun rc => p G rc)
        (marked.foldl bumpFreq st.1, st.2.1 + 1, some sh)

/-- Output of `/rooms/{room_id}/most_disregarded`. -/
structure DisregardedOut where
  sessionsFound : ℕ
  sessionsUsed : ℕ
  gridH : ℕ
  gridW : ℕ
  topDisregarded : List ((ℕ × ℕ) × ℕ)
deriving DecidableEq, Repr

/-- `most_disregarded`: count per cell in how many shape-matched sessions
it was left at exactly 0; fail when the frequency dict stays empty. -/
def mostDisregarded (sessions : List (Option (List (List ℤ)))) (k : ℕ) :
    Except String DisregardedOut :=
  if sessions.isEmpty then .error "no sessions found for room+surface_type"
  else
    let st := sessions.foldl (freqStep (fun G rc => gridAt G rc == 0)) ([], 0, none)
    match st.1 with
    | [] => .error "no missed cells found (or no usable grids)"
    | _ =>
      let sh := st.2.2.getD (0, 0)
      let sorted := st.1.mergeSort (fun a b => b.2 ≤ a.2)
      .ok { sessionsFound := sessions.length, sessionsUsed := st.2.1,
            gridH := sh.1, gridW := sh.2, topDisregarded := sorted.take k }

/-- Output of `/rooms/{room_id}/overwiped_hotspots`; the grid dimensions
are `None` when no usable grid fixed a shape. -/
structure OverwipedOut where
  sessionsFound : ℕ
  sessionsUsed : ℕ
  gridH : Option ℕ
  gridW : Option ℕ
  topOverwiped : List ((ℕ × ℕ) × ℕ)
deriving DecidableEq, Repr

/-- `overwiped_hotspots`: count per cell in how many shape-matched sessions
it reached the threshold; note there is no empty-frequency failure path. -/
def overwipedHotspots (sessions : List (Option (List (List ℤ))))
    (k : ℕ) (threshold : ℤ) : Except String OverwipedOut :=
  if sessions.isEmpty then .error "no sessions found for room+surface_type"
  else
    let st := sessions.foldl (freqStep (fun G rc => threshold ≤ gridAt G rc))
      ([], 0, none)
    let sorted := st.1.mergeSort (fun a b => b.2 ≤ a.2)
    .ok { sessionsFound := sessions.length, sessionsUsed := st.2.1,
          gridH := st.2.2.map Prod.fst, gridW := st.2.2.map Prod.snd,
          topOverwiped := sorted.take k }

/-! ### Spec-side counting helpers used in theorem statements -/

/-- Number of cells that are both covered (`count > 0`) and high-touch
(mask entry 1), counted pairwise over the two matrices. -/
def coveredHtCount (g M : List (List ℤ)) : ℕ :=
  ((g.zipWith (fun grow mrow =>
    (grow.zipWith (fun v h => if 0 < v ∧ h = 1 then (1 : ℕ) else 0) mrow).sum) M)).sum

/-- Strict row-major order on cell coordinates. -/
def rmLt (a b : ℕ × ℕ) : Prop := a.1 < b.1 ∨ (a.1 = b.1 ∧ a.2 < b.2)

/-- The shape of the first usable grid of a retrieved-session list (the
reference shape the aggregation endpoints compare against). -/
def firstUsableShape (sessions : List (Option (List (List ℤ)))) : Option (ℕ × ℕ) :=
  (usableGrids sessions).head?.map gridShape

/-- The usable grids whose shape matches the first usable grid's shape. -/
def matchedGrids (sessions : List (Option (List (List ℤ)))) : List (List (List ℤ)) :=
  match firstUsableShape sessions with
  | none => []
  | some sh => (usableGrids sessions).filter (fun G => gridShape G == sh)

/-- How many usable grids of `sessions` the accumulation loop will count as
used, given the reference shape already fixed (`some sh`) or still open
(`none`, fixed by the first usable grid). -/
def countMatchedFrom (sh0 : Option (ℕ × ℕ))
    (sessions : List (Option (List (List ℤ)))) : ℕ :=
  match sh0 with
  | some sh => ((usableGrids sessions).filter (fun G => gridShape G == sh)).length
  | none => (matchedGrids sessions).length

/-! ## Theorems -/

/-- Both clamp bounds: `clamp01 x ∈ [0, 1]`. -/
theorem clamp01_mem (x : ℚ) : 0 ≤ clamp01 x ∧ clamp01 x ≤ 1 := by
  unfold clamp01
  exact ⟨le_max_left _ _, max_le (by norm_num) (min_le_left _ _)⟩

/-- C1: per-cell risk is a total deterministic function of
(coverage count, high-touch flag): the result is always one of the five
labels, the decision table is exactly the claimed one (`h, 0 ↦ critical`;
`h, 1 ↦ high`; `¬h, 0 ↦ medium`; `h, ≥2 ↦ low`; otherwise `clear`), and the
2×2 example grid with coverage `[[0,1],[2,0]]` and mask `[[1,0],[0,1]]`
classifies as `[[critical, clear],[clear, critical]]`. -/
theorem riskLevel_total_table_example :
    (∀ (c : ℕ) (b : Bool),
      riskLevel c b = .critical ∨ riskLevel c b = .high ∨
      riskLevel c b = .medium ∨ riskLevel c b = .low ∨ riskLevel c b = .clear) ∧
    (∀ c : ℕ, riskLevel c true =
      (if c = 0 then .critical else if c = 1 then .high else .low)) ∧
    (∀ c : ℕ, riskLevel c false = (if c = 0 then .medium else .clear)) ∧
    riskGrid [[0, 1], [2, 0]] [[1, 0], [0, 1]] =
      [[.critical, .clear], [.clear, .critical]] := by
  refine ⟨?_, ?_, ?_, by decide⟩
  · intro c b
    unfold riskLevel
    split_ifs <;> tauto
  · intro c
    unfold riskLevel
    split_ifs <;> (simp_all; try omega)
  · intro c
    unfold riskLevel
    split_ifs <;> simp_all

/-- C2: the quality score equals the spec's formula (weighted clamps, with
the coverage term substituted when the high-touch percent is absent, minus
a flat 15-point penalty exactly when `duration < 30 ∧ coverage < 70`,
clamped to [0,100]); it always lies in [0,100]; and crossing duration below
30 s with coverage below 70 lowers the score by exactly 15, clamped at 0. -/
theorem computeQualityScore_correct :
    (∀ (cov : ℚ) (ht : Option ℚ) (ow std dur : ℚ),
      (computeQualityScore cov ht ow std dur).1 = qualityScoreSpec cov ht ow std dur) ∧
    (∀ (cov : ℚ) (ht : Option ℚ) (ow std dur : ℚ),
      0 ≤ (computeQualityScore cov ht ow std dur).1 ∧
      (computeQualityScore cov ht ow std dur).1 ≤ 100) ∧
    (∀ (cov : ℚ) (ht : Option ℚ) (ow std d1 d2 : ℚ), d1 < 30 → 30 ≤ d2 → cov < 70 →
      (computeQualityScore cov ht ow std d1).1 =
        max 0 ((computeQualityScore cov ht ow std d2).1 - 15)) := by
  have hraw : ∀ (cov : ℚ) (ht : Option ℚ) (ow std : ℚ),
      0 ≤ rawScoreSpec cov ht ow std ∧ rawScoreSpec cov ht ow std ≤ 100 := by
    intro cov ht ow std
    unfold rawScoreSpec
    obtain ⟨h1, h1'⟩ := clamp01_mem (cov / 100)
    obtain ⟨h3, h3'⟩ := clamp01_mem (1 - ow / (20/100))
    obtain ⟨h4, h4'⟩ := clamp01_mem (1 - std / 5)
    cases ht with
    | none => constructor <;> simp only [] <;> nlinarith
    | some p =>
      obtain ⟨h2, h2'⟩ := clamp01_mem (p / 100)
      constructor <;> simp only [] <;> nlinarith
  have heq : ∀ (cov : ℚ) (ht : Option ℚ) (ow std dur : ℚ),
      (computeQualityScore cov ht ow std dur).1 = qualityScoreSpec cov ht ow std dur := by
    intro cov ht ow std dur
    cases ht <;>
      simp only [computeQualityScore, qualityScoreSpec, rawScoreSpec]
  refine ⟨heq, ?_, ?_⟩
  · intro cov ht ow std dur
    rw [heq]
    unfold qualityScoreSpec
    constructor
    · exact le_max_left _ _
    · exact max_le (by norm_num) (min_le_left _ _)
  · intro cov ht ow std d1 d2 hd1 hd2 hcov
    rw [heq, heq]
    simp only [qualityScoreSpec]
    obtain ⟨hr0, hr100⟩ := hraw cov ht ow std
    set r := rawScoreSpec cov ht ow std with hr
    rw [if_pos ⟨hd1, hcov⟩, if_neg (by push_neg; intro h; linarith)]
    rw [sub_zero, min_eq_right hr100, max_eq_right hr0,
      min_eq_right (by linarith : r - 15 ≤ 100)]

/-- Witness for C2 at a concrete input: coverage 50, high-touch percent 0,
no overwipe, std 1; duration 20 s versus 30 s. -/
theorem computeQualityScore_correct_witness :
    (computeQualityScore 50 (some 0) 0 1 20).1 =
      max 0 ((computeQualityScore 50 (some 0) 0 1 30).1 - 15) :=
  computeQualityScore_correct.2.2 50 (some 0) 0 1 20 30 (by norm_num)
    (by norm_num) (by norm_num)

/-- Python's round never goes below a lower bound of its argument. -/
theorem pyRound_nonneg {q : ℚ} (h : 0 ≤ q) : 0 ≤ pyRound q := by
  unfold pyRound
  have hf : (0 : ℤ) ≤ ⌊q⌋ := Int.floor_nonneg.mpr h
  split_ifs <;> omega

/-- Python's round never exceeds an integer upper bound of its argument. -/
theorem pyRound_le {q : ℚ} {n : ℤ} (h : q ≤ (n : ℚ)) : pyRound q ≤ n := by
  have hf : ⌊q⌋ ≤ n := by
    have := Int.floor_le_floor h
    rwa [Int.floor_intCast] at this
  by_cases hfn : ⌊q⌋ = n
  · unfold pyRound
    rw [if_pos]
    · omega
    · have : q - ⌊q⌋ ≤ 0 := by
        rw [hfn]; linarith
      linarith
  · unfold pyRound
    split_ifs <;> omega

/-- Values of a Python slice are values of the sliced list. -/
theorem mem_of_mem_pyslice {α : Type} {x : α} {l : List α} {i j : ℤ}
    (h : x ∈ pyslice l i j) : x ∈ l :=
  (List.take_subset _ _) ((List.drop_subset _ _) h)

/-- A pointwise property of heatmap values survives cropping. -/
theorem cropToBox_forall {P : ℚ → Prop} {heat : List (List ℚ)}
    (hvals : ∀ row ∈ heat, ∀ v ∈ row, P v) (box : ℤ × ℤ × ℤ × ℤ) :
    ∀ row ∈ cropToBox heat box, ∀ v ∈ row, P v := by
  obtain ⟨bx1, by1, bx2, by2⟩ := box
  intro row hrow v hv
  simp only [cropToBox, List.mem_map] at hrow
  obtain ⟨orig, horig, rfl⟩ := hrow
  exact hvals orig (mem_of_mem_pyslice horig) v (mem_of_mem_pyslice hv)

/-- Each output cell of the discretizer lies in [0, 10] when the cropped
heatmap values lie in [0, 1]. -/
theorem cellValue_mem_bounds {roi : List (List ℚ)}
    (hvals : ∀ row ∈ roi, ∀ v ∈ row, 0 ≤ v ∧ v ≤ 1) (ys ye xs xe : ℕ) :
    0 ≤ cellValue roi ys ye xs xe ∧ cellValue roi ys ye xs xe ≤ 10 := by
  unfold cellValue
  by_cases hlen : ((((roi.take ye).drop ys).map
      (fun row => (row.take xe).drop xs)).flatten).length = 0
  · rw [if_pos hlen]; omega
  · rw [if_neg hlen]
    set vals := (((roi.take ye).drop ys).map
      (fun row => (row.take xe).drop xs)).flatten with hvalsdef
    have hmem : ∀ v ∈ vals, 0 ≤ v ∧ v ≤ 1 := by
      intro v hv
      rw [hvalsdef, List.mem_flatten] at hv
      obtain ⟨row', hrow', hv'⟩ := hv
      obtain ⟨row, hrow, rfl⟩ := List.mem_map.mp hrow'
      exact hvals row ((List.take_subset _ _) ((List.drop_subset _ _) hrow)) v
        ((List.take_subset _ _) ((List.drop_subset _ _) hv'))
    have hsum0 : 0 ≤ vals.sum := List.sum_nonneg (fun v hv => (hmem v hv).1)
    have hsum1 : vals.sum ≤ (vals.length : ℚ) := by
      calc vals.sum ≤ vals.length • (1 : ℚ) :=
            List.sum_le_card_nsmul _ _ (fun v hv => (hmem v hv).2)
        _ = (vals.length : ℚ) := by simp
    have hlpos : 0 < (vals.length : ℚ) := by
      exact_mod_cast Nat.pos_of_ne_zero hlen
    refine ⟨pyRound_nonneg (by positivity), pyRound_le ?_⟩
    have hmean : vals.sum / (vals.length : ℚ) ≤ 1 := (div_le_one hlpos).mpr hsum1
    have : (10 : ℚ) = (10 : ℤ) := by norm_num
    nlinarith [hmean, hlpos]

/-- C3 counterexample: on the 1×1 heatmap `[[1]]` with box `(0,0,1,1)` and
grid dimensions `gh = 2, gw = 1`, the code (`cell_h = max(1, h // gh)`)
yields `[[10],[0]]` while the claim's partition rule
(`cell_h = floor(h / gh) = 0`) yields `[[0],[10]]`: the claim's cell-size
formula does not describe the code when the crop is smaller than the grid. -/
theorem heatmapToGrid_floor_counterexample :
    heatmapToGrid [[1]] (0, 0, 1, 1) 2 1 = [[10], [0]] ∧
    heatmapToGridSpec [[1]] (0, 0, 1, 1) 2 1 = [[0], [10]] ∧
    heatmapToGrid [[1]] (0, 0, 1, 1) 2 1 ≠
      heatmapToGridSpec [[1]] (0, 0, 1, 1) 2 1 := by
  refine ⟨?_, ?_, ?_⟩ <;>
    norm_num [heatmapToGrid, heatmapToGridSpec, heatmapToGridCore, cropToBox,
      cellValue, pyslice, pyIdx, matWidth, pyRound, List.range_succ]

/-- C3 amended: with cell sizes `cell_h = max(1, floor(height/gh))` and
`cell_w = max(1, floor(width/gw))` (the final row/column absorbing the
remainder), the code agrees with the spec procedure; an empty clipped crop
yields the all-zero `gh × gw` grid; for heatmap values in [0,1] every
output cell is an integer in [0,10]; the output shape is `gh × gw`; and the
result is a deterministic function of `(heatmap, box, gh, gw)`. -/
theorem heatmapToGrid_amended (heat : List (List ℚ)) (box : ℤ × ℤ × ℤ × ℤ)
    (gh gw : ℕ) (hvals : ∀ row ∈ heat, ∀ v ∈ row, 0 ≤ v ∧ v ≤ 1) :
    heatmapToGrid heat box gh gw = heatmapToGridSpecAmended heat box gh gw ∧
    ((cropToBox heat box).length = 0 ∨ matWidth (cropToBox heat box) = 0 →
      heatmapToGrid heat box gh gw = List.replicate gh (List.replicate gw 0)) ∧
    (∀ row ∈ heatmapToGrid heat box gh gw, ∀ x ∈ row, 0 ≤ x ∧ x ≤ 10) ∧
    (heatmapToGrid heat box gh gw).length = gh ∧
    (∀ row ∈ heatmapToGrid heat box gh gw, row.length = gw) ∧
    (∀ (heat' : List (List ℚ)) (box' : ℤ × ℤ × ℤ × ℤ), heat' = heat →
      box' = box → heatmapToGrid heat' box' gh gw = heatmapToGrid heat box gh gw) := by
  refine ⟨rfl, ?_, ?_, ?_, ?_, ?_⟩
  · intro hempty
    simp only [heatmapToGrid, heatmapToGridCore]
    rw [if_pos hempty]
  · intro row hrow x hx
    simp only [heatmapToGrid, heatmapToGridCore] at hrow
    by_cases hempty : (cropToBox heat box).length = 0 ∨ matWidth (cropToBox heat box) = 0
    · rw [if_pos hempty] at hrow
      have := List.eq_of_mem_replicate hrow
      subst this
      have := List.eq_of_mem_replicate hx
      subst this
      omega
    · rw [if_neg hempty] at hrow
      obtain ⟨r, _, rfl⟩ := List.mem_map.mp hrow
      obtain ⟨c, _, rfl⟩ := List.mem_map.mp hx
      exact cellValue_mem_bounds (cropToBox_forall hvals box) _ _ _ _
  · simp only [heatmapToGrid, heatmapToGridCore]
    split_ifs <;> simp
  · intro row hrow
    simp only [heatmapToGrid, heatmapToGridCore] at hrow
    split_ifs at hrow
    · have := List.eq_of_mem_replicate hrow
      subst this
      simp
    · obtain ⟨r, _, rfl⟩ := List.mem_map.mp hrow
      simp
  · intro heat' box' h1 h2
    rw [h1, h2]

/-- Witness for C3's amended theorem: the 1×1 heatmap `[[1]]`, box
`(0,0,1,1)`, grid 2×1. -/
theorem heatmapToGrid_amended_witness :
    (∀ row ∈ [[(1 : ℚ)]], ∀ v ∈ row, 0 ≤ v ∧ v ≤ 1) ∧
    (heatmapToGrid [[1]] (0, 0, 1, 1) 2 1).length = 2 ∧
    (∀ row ∈ heatmapToGrid [[1]] (0, 0, 1, 1) 2 1, ∀ x ∈ row, 0 ≤ x ∧ x ≤ 10) :=
  have h : ∀ row ∈ [[(1 : ℚ)]], ∀ v ∈ row, 0 ≤ v ∧ v ≤ 1 := by norm_num
  ⟨h, (heatmapToGrid_amended [[1]] (0, 0, 1, 1) 2 1 h).2.2.2.1,
    (heatmapToGrid_amended [[1]] (0, 0, 1, 1) 2 1 h).2.2.1⟩

/-- A 0/1 row sums to the number of its 1-entries. -/
theorem row_sum_eq_countP {row : List ℤ} (hb : ∀ v ∈ row, v = 0 ∨ v = 1) :
    row.sum = (row.countP (fun v => v == 1) : ℤ) := by
  induction row with
  | nil => simp
  | cons a l ih =>
    have ha := hb a (List.mem_cons_self a l)
    have ihl := ih (fun v hv => hb v (List.mem_cons_of_mem a hv))
    rcases ha with rfl | rfl <;> (simp [List.countP_cons, ihl]; try ring)

/-- A 0/1 matrix's entry sum counts its 1-entries. -/
theorem matSum_eq_matCount {M : List (List ℤ)}
    (hb : ∀ row ∈ M, ∀ v ∈ row, v = 0 ∨ v = 1) :
    maskSum M = (matCount (fun v => v == 1) M : ℤ) := by
  induction M with
  | nil => simp [maskSum, matCount]
  | cons row rest ih =>
    have hrow := row_sum_eq_countP (hb row (List.mem_cons_self row rest))
    have ihr := ih (fun r hr => hb r (List.mem_cons_of_mem row hr))
    simp only [maskSum, matCount, List.map_cons, List.sum_cons] at ihr ⊢
    push_cast at ihr hrow ⊢
    linarith

/-- The covered×mask product-sum over one row pair counts covered
high-touch cells when the mask row is 0/1. -/
theorem row_prod_sum_eq_count {grow mrow : List ℤ}
    (hb : ∀ v ∈ mrow, v = 0 ∨ v = 1) :
    (grow.zipWith (fun v h => (if 0 < v then (1 : ℤ) else 0) * h) mrow).sum =
      ((grow.zipWith (fun v h => if 0 < v ∧ h = 1 then (1 : ℕ) else 0) mrow).sum : ℤ) := by
  induction grow generalizing mrow with
  | nil => simp
  | cons a l ih =>
    cases mrow with
    | nil => simp
    | cons b m =>
      have hbb := hb b (List.mem_cons_self b m)
      have ihm := ih (fun v hv => hb v (List.mem_cons_of_mem b hv))
      simp only [List.zipWith_cons_cons, List.sum_cons]
      rw [ihm]
      push_cast
      rcases hbb with rfl | rfl <;> by_cases ha : 0 < a <;> simp [ha]

/-- The matrix-level product-sum counts covered high-touch cells. -/
theorem covHt_sum_eq_count {g M : List (List ℤ)}
    (hb : ∀ row ∈ M, ∀ v ∈ row, v = 0 ∨ v = 1) :
    covHtSum g M = (coveredHtCount g M : ℤ) := by
  induction g generalizing M with
  | nil => simp [covHtSum, coveredHtCount]
  | cons grow grest ih =>
    cases M with
    | nil => simp [covHtSum, coveredHtCount]
    | cons mrow mrest =>
      have hrow := @row_prod_sum_eq_count grow mrow
        (hb mrow (List.mem_cons_self mrow mrest))
      have ihr := ih (fun r hr => hb r (List.mem_cons_of_mem mrow hr))
      simp only [covHtSum, coveredHtCount, List.zipWith_cons_cons,
        List.sum_cons] at ihr ⊢
      push_cast at hrow ihr ⊢
      linarith

/-- `matCount` counts over the flattened matrix. -/
theorem matCount_eq_flatten (p : ℤ → Bool) (g : List (List ℤ)) :
    matCount p g = g.flatten.countP p := by
  induction g with
  | nil => simp [matCount]
  | cons row rest ih => simp [matCount, List.countP_append] at ih ⊢

/-- `matSize` is the flattened length. -/
theorem matSize_eq_flatten {α : Type} (g : List (List α)) :
    matSize g = g.flatten.length := by
  induction g with
  | nil => simp [matSize]
  | cons row rest ih => simp [matSize] at ih ⊢

/-- C7: for a non-empty grid, coverage percent is 100 × (covered cells) /
(total cells); the high-touch percent is `None` exactly when the mask is
absent or has zero high-touch cells and otherwise 100 × (covered ∩
high-touch) / (high-touch cells); and the overwipe ratio with threshold `t`
is the fraction of cells with count ≥ t, with the `[[3,2],[4,0]]`,
threshold-3 example evaluating to 1/2. -/
theorem metrics_correct :
    (∀ g : List (List ℤ), matSize g ≠ 0 →
      computeCoveragePercent g =
        100 * (g.flatten.countP (fun v => 0 < v) : ℚ) / (g.flatten.length : ℚ)) ∧
    (∀ g : List (List ℤ), computeHighTouchCoveragePercent g none = none) ∧
    (∀ g M : List (List ℤ), (∀ row ∈ M, ∀ v ∈ row, v = 0 ∨ v = 1) →
      (computeHighTouchCoveragePercent g (some M) = none ↔
        matCount (fun v => v == 1) M = 0) ∧
      (matCount (fun v => v == 1) M ≠ 0 →
        computeHighTouchCoveragePercent g (some M) =
          some (100 * (coveredHtCount g M : ℚ) /
            (matCount (fun v => v == 1) M : ℚ)))) ∧
    (∀ (g : List (List ℤ)) (t : ℤ), matSize g ≠ 0 →
      computeOverwipeRatio g t =
        (g.flatten.countP (fun v => t ≤ v) : ℚ) / (g.flatten.length : ℚ)) ∧
    computeOverwipeRatio [[3, 2], [4, 0]] 3 = 1/2 := by
  refine ⟨?_, ?_, ?_, ?_, ?_⟩
  · intro g _
    unfold computeCoveragePercent
    rw [matCount_eq_flatten, matSize_eq_flatten]
    ring
  · intro g
    rfl
  · intro g M hb
    have hden : ((maskSum M : ℤ) : ℚ) = ((matCount (fun v => v == 1) M : ℕ) : ℚ) := by
      exact_mod_cast matSum_eq_matCount hb
    have hnum : ((covHtSum g M : ℤ) : ℚ) = ((coveredHtCount g M : ℕ) : ℚ) := by
      exact_mod_cast covHt_sum_eq_count hb
    constructor
    · simp only [computeHighTouchCoveragePercent, hden]
      constructor
      · intro h
        by_contra hc
        have hpos : (0 : ℚ) < ((matCount (fun v => v == 1) M : ℕ) : ℚ) := by
          exact_mod_cast Nat.pos_of_ne_zero hc
        rw [if_neg (not_le.mpr hpos)] at h
        exact Option.some_ne_none _ h
      · intro h
        rw [if_pos (by rw [h]; norm_num)]
    · intro h
      have hpos : (0 : ℚ) < ((matCount (fun v => v == 1) M : ℕ) : ℚ) := by
        exact_mod_cast Nat.pos_of_ne_zero h
      simp only [computeHighTouchCoveragePercent, hden]
      rw [if_neg (not_le.mpr hpos), hnum]
      congr 1
      ring
  · intro g t _
    unfold computeOverwipeRatio
    rw [matCount_eq_flatten, matSize_eq_flatten]
  · unfold computeOverwipeRatio matCount matSize
    norm_num

/-- Witness for C7: the spec's own example inputs — mask `[[1,0],[0,1]]`
(binary, 2 high-touch cells), grid `[[0,1],[2,0]]` gives high-touch percent
0; grid `[[3,2],[4,0]]` at threshold 3 gives ratio 1/2. -/
theorem metrics_correct_witness :
    (∀ row ∈ [[(1 : ℤ), 0], [0, 1]], ∀ v ∈ row, v = 0 ∨ v = 1) ∧
    computeHighTouchCoveragePercent [[0, 1], [2, 0]] (some [[1, 0], [0, 1]]) = some 0 ∧
    computeOverwipeRatio [[3, 2], [4, 0]] 3 = 1/2 := by
  have hb : ∀ row ∈ [[(1 : ℤ), 0], [0, 1]], ∀ v ∈ row, v = 0 ∨ v = 1 := by decide
  refine ⟨hb, ?_, metrics_correct.2.2.2.2⟩
  have h := (metrics_correct.2.2.1 [[0, 1], [2, 0]] [[1, 0], [0, 1]] hb).2 (by decide)
  rw [h]
  norm_num [coveredHtCount, matCount]

/-- Coordinate membership in the row-major enumeration. -/
theorem mem_cellsRowMajor {H W : ℕ} {rc : ℕ × ℕ} :
    rc ∈ cellsRowMajor H W ↔ rc.1 < H ∧ rc.2 < W := by
  obtain ⟨r, c⟩ := rc
  simp only [cellsRowMajor, List.mem_flatMap, List.mem_map, List.mem_range,
    Prod.mk.injEq]
  constructor
  · rintro ⟨a, ha, b, hb, rfl, rfl⟩
    exact ⟨ha, hb⟩
  · rintro ⟨h1, h2⟩
    exact ⟨r, h1, c, h2, rfl, rfl⟩

/-- The row-major enumeration is strictly increasing in row-major order. -/
theorem pairwise_cellsRowMajor (H W : ℕ) : (cellsRowMajor H W).Pairwise rmLt := by
  unfold cellsRowMajor
  rw [List.pairwise_flatMap]
  constructor
  · intro r _
    rw [List.pairwise_map]
    exact (List.pairwise_lt_range W).imp (fun h => Or.inr ⟨rfl, h⟩)
  · refine (List.pairwise_lt_range H).imp ?_
    intro a b hab x hx y hy
    simp only [List.mem_map, List.mem_range] at hx hy
    obtain ⟨c1, _, rfl⟩ := hx
    obtain ⟨c2, _, rfl⟩ := hy
    exact Or.inl hab

/-- What membership in the high-touch tier list implies. -/
theorem mem_hiMissedList {g M : List (List ℤ)} {e : MissedCell}
    (he : e ∈ hiMissedList g M) :
    (e.r, e.c) ∈ cellsRowMajor g.length (matWidth g) ∧
      ¬ 0 < gridAt g (e.r, e.c) ∧ gridAt M (e.r, e.c) = 1 ∧ e.highPri = true := by
  unfold hiMissedList at he
  obtain ⟨rc, hrc, rfl⟩ := List.mem_map.mp he
  obtain ⟨hmem, hp⟩ := List.mem_filter.mp hrc
  rw [decide_eq_true_eq] at hp
  exact ⟨hmem, hp.1, hp.2, rfl⟩

/-- Every uncovered in-range high-touch cell appears in the high tier. -/
theorem hiMissedList_mem_of {g M : List (List ℤ)} {r c : ℕ}
    (hr : r < g.length) (hc : c < matWidth g) (h0 : ¬ 0 < gridAt g (r, c))
    (h1 : gridAt M (r, c) = 1) :
    (⟨r, c, true⟩ : MissedCell) ∈ hiMissedList g M := by
  unfold hiMissedList
  exact List.mem_map.mpr ⟨(r, c), List.mem_filter.mpr
    ⟨mem_cellsRowMajor.mpr ⟨hr, hc⟩, by simp [h0, h1]⟩, rfl⟩

/-- What membership in the normal tier list implies. -/
theorem mem_normalMissedList {g : List (List ℤ)} {hi : List MissedCell}
    {e : MissedCell} (he : e ∈ normalMissedList g hi) :
    ¬ 0 < gridAt g (e.r, e.c) ∧ e.highPri = false := by
  unfold normalMissedList at he
  obtain ⟨rc, hrc, rfl⟩ := List.mem_map.mp he
  obtain ⟨_, hp⟩ := List.mem_filter.mp hrc
  rw [Bool.and_eq_true, decide_eq_true_eq] at hp
  exact ⟨hp.1, rfl⟩

/-- Closed form of `top_missed_cells` with a mask: the high tier truncated
to `k`, then the normal tier filling the remaining budget. -/
theorem topMissedCells_eq (g M : List (List ℤ)) (k : ℕ) (hg : g ≠ []) :
    topMissedCells g (some M) k =
      some ((hiMissedList g M).take k ++
        (normalMissedList g (hiMissedList g M)).take
          (k - (hiMissedList g M).length)) := by
  unfold topMissedCells
  rw [if_neg (by simpa [List.isEmpty_iff] using hg)]
  simp only
  split_ifs with h
  · rw [List.take_of_length_le (le_of_lt h)]
  · have h0 : k - (hiMissedList g M).length = 0 := by omega
    rw [h0]
    simp

/-- Coordinates of the high tier, as a take of a filter of the row-major
enumeration. -/
theorem hiMissedList_coords (g M : List (List ℤ)) :
    (hiMissedList g M).map (fun e => (e.r, e.c)) =
      (cellsRowMajor g.length (matWidth g)).filter
        (fun rc => decide (¬ 0 < gridAt g rc ∧ gridAt M rc = 1)) := by
  unfold hiMissedList
  rw [List.map_map]
  exact List.map_id _

/-- Coordinates of the normal tier. -/
theorem normalMissedList_coords (g : List (List ℤ)) (hi : List MissedCell) :
    (normalMissedList g hi).map (fun e => (e.r, e.c)) =
      (cellsRowMajor g.length (matWidth g)).filter
        (fun rc => decide (¬ 0 < gridAt g rc) &&
          !(hi.any (fun e => e.r == rc.1 && e.c == rc.2))) := by
  unfold normalMissedList
  rw [List.map_map]
  exact List.map_id _

/-- C8: for equal-shape grid and binary mask and any budget `k`, the ranker
returns at most `k` entries; every entry is an uncovered cell; `high_touch`
entries are exactly uncovered mask-1 cells; as soon as any `normal` entry
appears the high-touch tier has been listed exhaustively; each tier is in
strictly increasing row-major order; and on a grid whose 2 high-touch and 5
normal cells are all uncovered, `k = 3` returns the 2 high-touch entries
then 1 normal entry. -/
theorem topMissedCells_ranking (g M : List (List ℤ)) (k : ℕ) (hg : g ≠ [])
    (_hrect : rect g) (_hMrect : rect M) (_hMh : M.length = g.length)
    (_hMw : matWidth M = matWidth g)
    (_hbin : ∀ row ∈ M, ∀ v ∈ row, v = 0 ∨ v = 1) :
    (∃ l, topMissedCells g (some M) k = some l ∧
      l = (hiMissedList g M).take k ++
        (normalMissedList g (hiMissedList g M)).take
          (k - (hiMissedList g M).length) ∧
      l.length ≤ k ∧
      (∀ e ∈ l, ¬ 0 < gridAt g (e.r, e.c)) ∧
      (∀ e ∈ l, e.highPri = true → gridAt M (e.r, e.c) = 1) ∧
      ((∃ e ∈ l, e.highPri = false) →
        ∀ r c, r < g.length → c < matWidth g → ¬ 0 < gridAt g (r, c) →
          gridAt M (r, c) = 1 → (⟨r, c, true⟩ : MissedCell) ∈ l) ∧
      ((l.filter (fun e => e.highPri)).map (fun e => (e.r, e.c))).Pairwise rmLt ∧
      ((l.filter (fun e => !e.highPri)).map (fun e => (e.r, e.c))).Pairwise rmLt) ∧
    topMissedCells [[0, 0, 0, 0, 0, 0, 0]] (some [[1, 0, 0, 1, 0, 0, 0]]) 3 =
      some [⟨0, 0, true⟩, ⟨0, 3, true⟩, ⟨0, 1, false⟩] := by
  refine ⟨?_, by decide⟩
  set hi := hiMissedList g M with hhi
  set nrm := normalMissedList g (hiMissedList g M) with hnrm
  set l := hi.take k ++ nrm.take (k - hi.length) with hl
  have hfilter_hi : l.filter (fun e => e.highPri) = hi.take k := by
    rw [hl, List.filter_append]
    have h1 : (hi.take k).filter (fun e => e.highPri) = hi.take k :=
      List.filter_eq_self.mpr (fun e he =>
        (mem_hiMissedList ((List.take_subset _ _) he)).2.2.2)
    have h2 : (nrm.take (k - hi.length)).filter (fun e => e.highPri) = [] :=
      List.filter_eq_nil_iff.mpr (fun e he => by
        rw [(mem_normalMissedList ((List.take_subset _ _) he)).2]
        exact Bool.false_ne_true)
    rw [h1, h2, List.append_nil]
  have hfilter_nrm : l.filter (fun e => !e.highPri) = nrm.take (k - hi.length) := by
    rw [hl, List.filter_append]
    have h1 : (hi.take k).filter (fun e => !e.highPri) = [] :=
      List.filter_eq_nil_iff.mpr (fun e he => by
        rw [(mem_hiMissedList ((List.take_subset _ _) he)).2.2.2]
        simp)
    have h2 : (nrm.take (k - hi.length)).filter (fun e => !e.highPri) =
        nrm.take (k - hi.length) :=
      List.filter_eq_self.mpr (fun e he => by
        rw [(mem_normalMissedList ((List.take_subset _ _) he)).2]
        simp)
    rw [h1, h2, List.nil_append]
  refine ⟨l, topMissedCells_eq g M k hg, rfl, ?_, ?_, ?_, ?_, ?_, ?_⟩
  · rw [hl]
    simp only [List.length_append, List.length_take]
    omega
  · intro e he
    rcases List.mem_append.mp he with h | h
    · exact (mem_hiMissedList ((List.take_subset _ _) h)).2.1
    · exact (mem_normalMissedList ((List.take_subset _ _) h)).1
  · intro e he hef
    rcases List.mem_append.mp he with h | h
    · exact (mem_hiMissedList ((List.take_subset _ _) h)).2.2.1
    · rw [(mem_normalMissedList ((List.take_subset _ _) h)).2] at hef
      exact absurd hef Bool.false_ne_true
  · rintro ⟨e, he, hef⟩ r c hr hc h0 h1
    have hnormal : e ∈ nrm.take (k - hi.length) := by
      rcases List.mem_append.mp he with h | h
      · rw [(mem_hiMissedList ((List.take_subset _ _) h)).2.2.2] at hef
        exact absurd hef.symm Bool.false_ne_true
      · exact h
    have hlen : hi.length < k := by
      by_contra hcon
      have : k - hi.length = 0 := by omega
      rw [this, List.take_zero] at hnormal
      exact absurd hnormal (List.not_mem_nil e)
    apply List.mem_append_left
    rw [List.take_of_length_le (le_of_lt hlen)]
    exact hiMissedList_mem_of hr hc h0 h1
  · rw [hfilter_hi, List.map_take, hiMissedList_coords]
    exact List.Pairwise.sublist ((List.take_sublist _ _).trans (List.filter_sublist _))
      (pairwise_cellsRowMajor _ _)
  · rw [hfilter_nrm, List.map_take, normalMissedList_coords]
    exact List.Pairwise.sublist ((List.take_sublist _ _).trans (List.filter_sublist _))
      (pairwise_cellsRowMajor _ _)

/-- Witness for C8: the 1×7 grid with all cells uncovered, a mask with two
high-touch cells, budget 3. -/
theorem topMissedCells_ranking_witness :
    (([[0, 0, 0, 0, 0, 0, 0]] : List (List ℤ)) ≠ [] ∧
      rect ([[0, 0, 0, 0, 0, 0, 0]] : List (List ℤ)) ∧
      (∀ row ∈ [[(1 : ℤ), 0, 0, 1, 0, 0, 0]], ∀ v ∈ row, v = 0 ∨ v = 1)) ∧
    topMissedCells [[0, 0, 0, 0, 0, 0, 0]] (some [[1, 0, 0, 1, 0, 0, 0]]) 3 =
      some [⟨0, 0, true⟩, ⟨0, 3, true⟩, ⟨0, 1, false⟩] :=
  ⟨⟨by decide, by decide, by decide⟩,
    (topMissedCells_ranking [[0, 0, 0, 0, 0, 0, 0]] [[1, 0, 0, 1, 0, 0, 0]] 3
      (by decide) (by decide) (by decide) (by decide) (by decide) (by decide)).2⟩

/-- C10 (implicit): with no mask the ranker never emits a `high_touch`
entry — it returns exactly the uncovered cells in row-major order, all with
`normal` priority, truncated to the first `k`. -/
theorem topMissedCells_noMask (g : List (List ℤ)) (k : ℕ) (hg : g ≠ [])
    (_hrect : rect g) :
    topMissedCells g none k = some ((normalMissedList g []).take k) ∧
    normalMissedList g [] =
      ((cellsRowMajor g.length (matWidth g)).filter
        (fun rc => decide (¬ 0 < gridAt g rc))).map
        (fun rc => (⟨rc.1, rc.2, false⟩ : MissedCell)) ∧
    (∀ e ∈ (normalMissedList g []).take k,
      e.highPri = false ∧ ¬ 0 < gridAt g (e.r, e.c)) ∧
    (((normalMissedList g []).take k).map (fun e => (e.r, e.c))).Pairwise rmLt := by
  refine ⟨?_, ?_, ?_, ?_⟩
  · unfold topMissedCells
    rw [if_neg (by simpa [List.isEmpty_iff] using hg)]
    simp only
    rcases Nat.eq_zero_or_pos k with rfl | hk
    · simp
    · rw [if_pos (by simpa using hk)]
      simp
  · unfold normalMissedList
    simp
  · intro e he
    have h := mem_normalMissedList ((List.take_subset _ _) he)
    exact ⟨h.2, h.1⟩
  · rw [List.map_take, normalMissedList_coords]
    exact List.Pairwise.sublist ((List.take_sublist _ _).trans (List.filter_sublist _))
      (pairwise_cellsRowMajor _ _)

/-- Witness for C10: the 2×2 grid `[[0,1],[0,0]]`, `k = 3`, no mask. -/
theorem topMissedCells_noMask_witness :
    (([[0, 1], [0, 0]] : List (List ℤ)) ≠ [] ∧
      rect ([[0, 1], [0, 0]] : List (List ℤ))) ∧
    topMissedCells [[0, 1], [0, 0]] none 3 =
      some ((normalMissedList [[0, 1], [0, 0]] []).take 3) :=
  ⟨⟨by decide, by decide⟩,
    (topMissedCells_noMask [[0, 1], [0, 0]] 3 (by decide) (by decide)).1⟩

/-- C4: the session state machine rejects invalid transitions as no-ops
that report failure: `start_session` fails leaving every state field
unchanged when already recording or when the candidate box set is empty;
`stop_session` fails (state unchanged, no payload) when not recording; and
from any recording state with its session resources in place,
`stop_session` succeeds, resets the machine to the cleared idle state, and
a subsequent start with non-empty candidate boxes succeeds. -/
theorem sessionStateMachine_correct :
    (∀ (fh fw : ℕ) (boxes : List (ℤ × ℤ × ℤ × ℤ)) (id : String) (tu t : ℚ)
      (s : CamState), s.recording = true ∨ boxes = [] →
      startSession fh fw boxes id tu t s = (false, s)) ∧
    (∀ (tu t : ℚ) (s : CamState), s.recording = false →
      stopSession tu t s = some (false, s, none)) ∧
    (∀ (tu t : ℚ) (s : CamState) (heat : List (List ℚ)) (t0u t0 : ℚ)
      (sid : String) (chosen : ℤ × ℤ × ℤ × ℤ),
      s.recording = true → s.heatMap = some heat → s.startTimeUtc = some t0u →
      s.startTime = some t0 → s.sessionId = some sid →
      maxAreaBox s.tableBoxes = some chosen →
      ∃ p, stopSession tu t s = some (true, initialCamState, some p) ∧
        initialCamState.recording = false ∧
        initialCamState.tableBoxes = [] ∧
        initialCamState.tableMask = none ∧
        initialCamState.heatMap = none ∧
        initialCamState.sessionId = none ∧
        (∀ (fh fw : ℕ) (boxes : List (ℤ × ℤ × ℤ × ℤ)) (id : String)
          (tu2 t2 : ℚ), boxes ≠ [] →
          (startSession fh fw boxes id tu2 t2 initialCamState).1 = true)) := by
  refine ⟨?_, ?_, ?_⟩
  · intro fh fw boxes id tu t s h
    unfold startSession
    rcases h with h | h
    · rw [if_pos (Or.inl h)]
    · rw [if_pos (Or.inr (by simp [h]))]
  · intro tu t s h
    unfold stopSession
    rw [if_pos (by simp [h])]
  · intro tu t s heat t0u t0 sid chosen hrec hheat ht0u ht0 hsid hbox
    unfold stopSession
    rw [if_neg (by simp [hrec]), hheat, ht0u, ht0, hsid, hbox]
    refine ⟨_, rfl, rfl, rfl, rfl, rfl, rfl, ?_⟩
    intro fh fw boxes id tu2 t2 hne
    unfold startSession
    rw [if_neg (by simp [initialCamState, hne])]

/-- Witness for C4: failed start on empty boxes, failed stop while idle,
and a start–stop round trip from the initial state. -/
theorem sessionStateMachine_correct_witness :
    startSession 1 1 [] "x" 0 0 initialCamState = (false, initialCamState) ∧
    stopSession 0 0 initialCamState = some (false, initialCamState, none) ∧
    (stopSession 1 1
      ((startSession 1 1 [(0, 0, 1, 1)] "sid" 0 0 initialCamState).2)).isSome = true := by
  refine ⟨sessionStateMachine_correct.1 1 1 [] "x" 0 0 initialCamState (Or.inr rfl),
    sessionStateMachine_correct.2.1 0 0 initialCamState rfl, ?_⟩
  obtain ⟨p, hp, -⟩ := sessionStateMachine_correct.2.2 1 1
    ((startSession 1 1 [(0, 0, 1, 1)] "sid" 0 0 initialCamState).2)
    (zeroHeat 1 1) 0 0 "sid" (0, 0, 1, 1) rfl rfl rfl rfl rfl rfl
  rw [hp]
  rfl

/-- Per-pixel characterization of `_update_heatmap`: inside the grid the
new value is the clipped (possibly stepped) old value, outside it stays the
default 0. -/
theorem heatAt_updateHeatmap (heat : List (List ℚ)) (mask : List (List Bool))
    (palm : ℤ × ℤ) (radius : ℤ) (r c : ℕ) :
    heatAt (updateHeatmap heat mask palm radius) r c =
      if r < heat.length ∧ c < (heat.getD r []).length then
        max 0 (min 1 (if inDisk palm radius r c ∧ maskAt mask r c then
          heatAt heat r c + 2/100 else heatAt heat r c))
      else 0 := by
  by_cases hr : r < heat.length
  · have hrow : heat.getD r [] = heat[r] := by
      simp [List.getD_eq_getElem?_getD, List.getElem?_eq_getElem hr]
    by_cases hc : c < heat[r].length
    · rw [if_pos ⟨hr, by rw [hrow]; exact hc⟩]
      simp only [updateHeatmap, heatAt, List.getD_eq_getElem?_getD,
        List.getElem?_mapIdx, List.getElem?_eq_getElem hr, Option.map_some',
        Option.getD_some, List.getElem?_eq_getElem hc]
    · rw [if_neg (by rw [hrow]; tauto)]
      simp only [updateHeatmap, heatAt, List.getD_eq_getElem?_getD,
        List.getElem?_mapIdx, List.getElem?_eq_getElem hr, Option.map_some',
        Option.getD_some, List.getElem?_eq_none (le_of_not_lt hc)]
      rfl
  · rw [if_neg (by tauto)]
    simp only [updateHeatmap, heatAt, List.getD_eq_getElem?_getD,
      List.getElem?_mapIdx, List.getElem?_eq_none (le_of_not_lt hr)]
    rfl

/-- Off-grid reads of a heat matrix give the default 0. -/
theorem heatAt_out_of_range {heat : List (List ℚ)} {r c : ℕ}
    (h : ¬ (r < heat.length ∧ c < (heat.getD r []).length)) :
    heatAt heat r c = 0 := by
  unfold heatAt
  by_cases hr : r < heat.length
  · have hc : (heat.getD r []).length ≤ c := by omega
    rw [List.getD_eq_getElem?_getD (heat.getD r []), List.getElem?_eq_none hc]
    rfl
  · rw [List.getD_eq_getElem?_getD, List.getD_eq_getElem?_getD,
      List.getElem?_eq_none (le_of_not_lt hr)]
    rfl

/-- The freshly allocated heatmap is zero at every pixel. -/
theorem heatAt_zeroHeat (fh fw r c : ℕ) : heatAt (zeroHeat fh fw) r c = 0 := by
  simp only [heatAt, zeroHeat, List.getD_eq_getElem?_getD, List.getElem?_replicate]
  split_ifs <;> simp

/-- C9: the heatmap invariant. A successful `start_session` installs the
all-zero heatmap; one `_update_heatmap` step preserves `[0,1]` at every
pixel, changes nothing outside the disk∩mask intersection, adds exactly the
clipped 0.02 step inside it, and never decreases any pixel. -/
theorem heatmap_invariant :
    (∀ (fh fw : ℕ) (boxes : List (ℤ × ℤ × ℤ × ℤ)) (id : String) (tu t : ℚ)
      (s s' : CamState) (ok : Bool),
      startSession fh fw boxes id tu t s = (ok, s') → ok = true →
      s'.heatMap = some (zeroHeat fh fw) ∧
      ∀ r c, heatAt (zeroHeat fh fw) r c = 0) ∧
    (∀ (heat : List (List ℚ)) (mask : List (List Bool)) (palm : ℤ × ℤ)
      (radius : ℤ),
      (∀ i j, 0 ≤ heatAt heat i j ∧ heatAt heat i j ≤ 1) →
      ∀ r c,
        (0 ≤ heatAt (updateHeatmap heat mask palm radius) r c ∧
          heatAt (updateHeatmap heat mask palm radius) r c ≤ 1) ∧
        (¬ (inDisk palm radius r c ∧ maskAt mask r c = true) →
          heatAt (updateHeatmap heat mask palm radius) r c = heatAt heat r c) ∧
        (inDisk palm radius r c → maskAt mask r c = true → r < heat.length →
          c < (heat.getD r []).length →
          heatAt (updateHeatmap heat mask palm radius) r c =
            min 1 (heatAt heat r c + 2/100)) ∧
        heatAt heat r c ≤ heatAt (updateHeatmap heat mask palm radius) r c) := by
  constructor
  · intro fh fw boxes id tu t s s' ok hstart hok
    subst hok
    unfold startSession at hstart
    split_ifs at hstart with hcond
    · injection hstart with h1 h2
      exact absurd h1 Bool.false_ne_true
    · injection hstart with h1 h2
      subst h2
      exact ⟨rfl, fun r c => heatAt_zeroHeat fh fw r c⟩
  · intro heat mask palm radius hinv r c
    have hb := hinv r c
    rw [heatAt_updateHeatmap]
    by_cases hin : r < heat.length ∧ c < (heat.getD r []).length
    · rw [if_pos hin]
      have hv : heatAt heat r c = (heat.getD r []).getD c 0 := rfl
      by_cases hd : inDisk palm radius r c ∧ maskAt mask r c
      · rw [if_pos hd]
        refine ⟨⟨le_max_left _ _, max_le (by norm_num) (min_le_left _ _)⟩, ?_, ?_, ?_⟩
        · intro hnd
          exact absurd ⟨hd.1, hd.2⟩ hnd
        · intro _ _ _ _
          exact max_eq_right (le_min (by norm_num) (by linarith [hb.1]))
        · have h1 : min 1 (heatAt heat r c + 2/100) ≥ heatAt heat r c :=
            le_min hb.2 (by linarith)
          calc heatAt heat r c ≤ min 1 (heatAt heat r c + 2/100) := h1
            _ ≤ max 0 (min 1 (heatAt heat r c + 2/100)) := le_max_right _ _
      · rw [if_neg hd]
        have hclip : max 0 (min 1 (heatAt heat r c)) = heatAt heat r c := by
          rw [min_eq_right hb.2, max_eq_right hb.1]
        refine ⟨⟨le_max_left _ _, max_le (by norm_num) (min_le_left _ _)⟩, ?_, ?_, ?_⟩
        · intro _
          exact hclip
        · intro h1 h2 _ _
          exact absurd ⟨h1, h2⟩ hd
        · rw [hclip]
    · rw [if_neg hin, heatAt_out_of_range hin]
      refine ⟨⟨le_refl 0, by norm_num⟩, fun _ => rfl, ?_, le_refl 0⟩
      intro _ _ h1 h2
      exact absurd ⟨h1, h2⟩ hin

/-- C5 (code bug): the payload with `grid_h = 0` and an empty coverage grid
passes every one of the four documented validation checks (`end ≥ start`,
row count = grid_h, all row lengths = grid_w, no mask, fresh session id),
yet `ingest_session` does not store and score it: `run_pipeline` raises
(unpacking `missed.shape` of a 1-D empty array in `top_missed_cells`), so
the handler ends in an unhandled internal error instead of a descriptive
rejection, for every square-root and anonymization function. -/
theorem ingestSession_empty_grid_crash (sqrtFn : ℚ → ℚ)
    (anonFn : Option String → String) :
    (¬ ((0 : ℚ) - 0 < 0)) ∧
    ((([] : List (List ℤ)).length : ℤ) = 0) ∧
    (∀ row ∈ ([] : List (List ℤ)), (row.length : ℤ) = 1) ∧
    "s-empty" ∉ ([] : List String) ∧
    ingestSession sqrtFn anonFn []
      { sessionId := "s-empty", surfaceId := "S", surfaceType := "tray",
        roomId := none, cleanerId := none, startTime := 0, endTime := 0,
        gridH := 0, gridW := 1, coverageCountGrid := [],
        highTouchMask := none, wipeEvents := none, cameraId := none } =
      .error .internalError := by
  refine ⟨by norm_num, by simp, by simp, List.not_mem_nil _, ?_⟩
  simp only [ingestSession, runPipeline, topMissedCells]
  norm_num

/-- Witness for C9: a successful 1×1-frame start installs the zero heatmap,
and one update step on it at pixel (0,0) stays within [0,1] and does not
decrease the pixel. -/
theorem heatmap_invariant_witness :
    ((startSession 1 1 [(0, 0, 0, 0)] "x" 0 0 initialCamState).2).heatMap =
      some (zeroHeat 1 1) ∧
    heatAt (zeroHeat 1 1) 0 0 = 0 ∧
    (0 ≤ heatAt (updateHeatmap (zeroHeat 1 1) [[true]] (0, 0) 1) 0 0 ∧
      heatAt (updateHeatmap (zeroHeat 1 1) [[true]] (0, 0) 1) 0 0 ≤ 1) ∧
    heatAt (zeroHeat 1 1) 0 0 ≤
      heatAt (updateHeatmap (zeroHeat 1 1) [[true]] (0, 0) 1) 0 0 := by
  have h1 := heatmap_invariant.1 1 1 [(0, 0, 0, 0)] "x" 0 0 initialCamState
    ((startSession 1 1 [(0, 0, 0, 0)] "x" 0 0 initialCamState).2)
    ((startSession 1 1 [(0, 0, 0, 0)] "x" 0 0 initialCamState).1) rfl rfl
  have hbounds : ∀ i j, 0 ≤ heatAt (zeroHeat 1 1) i j ∧
      heatAt (zeroHeat 1 1) i j ≤ 1 := fun i j => by
    rw [h1.2 i j]
    norm_num
  have h2 := heatmap_invariant.2 (zeroHeat 1 1) [[true]] (0, 0) 1 hbounds 0 0
  exact ⟨h1.1, h1.2 0 0, h2.1, h2.2.2.2⟩

/-- `usableGrids` distributes over append. -/
theorem usableGrids_append (a b : List (Option (List (List ℤ)))) :
    usableGrids (a ++ b) = usableGrids a ++ usableGrids b := by
  unfold usableGrids
  exact List.filterMap_append _ _ _

/-- `usableGrids` skips an absent grid. -/
theorem usableGrids_cons_none (rest : List (Option (List (List ℤ)))) :
    usableGrids (none :: rest) = usableGrids rest := rfl

/-- `usableGrids` keeps a present non-empty grid. -/
theorem usableGrids_cons_some {g : List (List ℤ)} (hg : ¬ g.isEmpty)
    (rest : List (Option (List (List ℤ)))) :
    usableGrids (some g :: rest) = g :: usableGrids rest := by
  have hne : ¬ g = [] := by simpa [List.isEmpty_iff] using hg
  simp [usableGrids, List.filterMap_cons, hne]

/-- `usableGrids` skips a present empty grid (falsy in Python). -/
theorem usableGrids_cons_some_empty {g : List (List ℤ)} (hg : g.isEmpty)
    (rest : List (Option (List (List ℤ)))) :
    usableGrids (some g :: rest) = usableGrids rest := by
  have hne : g = [] := by simpa [List.isEmpty_iff] using hg
  simp [usableGrids, List.filterMap_cons, hne]

/-- With no usable grid, the accumulation loop is the identity. -/
theorem fold_freqStep_id (p : List (List ℤ) → ℕ × ℕ → Bool)
    (sessions : List (Option (List (List ℤ))))
    (h : usableGrids sessions = []) (st : List ((ℕ × ℕ) × ℕ) × ℕ × Option (ℕ × ℕ)) :
    sessions.foldl (freqStep p) st = st := by
  induction sessions generalizing st with
  | nil => rfl
  | cons og rest ih =>
    cases og with
    | none =>
      rw [List.foldl_cons]
      exact ih (by rwa [usableGrids_cons_none] at h) st
    | some g =>
      have hg : g.isEmpty := by
        by_contra hne
        rw [usableGrids_cons_some hne] at h
        cases h
      rw [List.foldl_cons, show freqStep p st (some g) = st by simp [freqStep, hg]]
      exact ih (by rwa [usableGrids_cons_some_empty hg] at h) st

/-- The shape component of the accumulation state: the given shape if
already fixed, else the first usable grid's shape. -/
theorem fold_freqStep_shape (p : List (List ℤ) → ℕ × ℕ → Bool)
    (sessions : List (Option (List (List ℤ)))) :
    ∀ (freq0 : List ((ℕ × ℕ) × ℕ)) (u0 : ℕ) (sh0 : Option (ℕ × ℕ)),
    (sessions.foldl (freqStep p) (freq0, u0, sh0)).2.2 =
      sh0.or (firstUsableShape sessions) := by
  induction sessions with
  | nil =>
    intro freq0 u0 sh0
    simp [firstUsableShape, usableGrids]
  | cons og rest ih =>
    intro freq0 u0 sh0
    rw [List.foldl_cons]
    cases og with
    | none =>
      rw [show freqStep p (freq0, u0, sh0) none = (freq0, u0, sh0) from rfl, ih]
      rfl
    | some g =>
      by_cases hg : g.isEmpty
      · rw [show freqStep p (freq0, u0, sh0) (some g) = (freq0, u0, sh0) by
          simp [freqStep, hg], ih]
        congr 1
        simp [firstUsableShape, usableGrids_cons_some_empty hg]
      · have hfu : firstUsableShape (some g :: rest) = some (gridShape g) := by
          simp [firstUsableShape, usableGrids_cons_some hg]
        have hstep : (freqStep p (freq0, u0, sh0) (some g)).2.2 =
            some (sh0.getD (gridShape g)) := by
          simp only [freqStep]
          rw [if_neg hg]
          split_ifs <;> rfl
        calc (rest.foldl (freqStep p) (freqStep p (freq0, u0, sh0) (some g))).2.2
            = ((freqStep p (freq0, u0, sh0) (some g)).2.2).or
                (firstUsableShape rest) :=
              ih _ _ _
          _ = sh0.or (firstUsableShape (some g :: rest)) := by
              rw [hstep, hfu]
              cases sh0 <;> rfl

/-- The `used` counter of the accumulation state counts the usable grids
matching the reference shape. -/
theorem fold_freqStep_used (p : List (List ℤ) → ℕ × ℕ → Bool)
    (sessions : List (Option (List (List ℤ)))) :
    ∀ (freq0 : List ((ℕ × ℕ) × ℕ)) (u0 : ℕ) (sh0 : Option (ℕ × ℕ)),
    (sessions.foldl (freqStep p) (freq0, u0, sh0)).2.1 =
      u0 + countMatchedFrom sh0 sessions := by
  induction sessions with
  | nil =>
    intro freq0 u0 sh0
    cases sh0 <;> simp [countMatchedFrom, matchedGrids, firstUsableShape, usableGrids]
  | cons og rest ih =>
    intro freq0 u0 sh0
    rw [List.foldl_cons]
    cases og with
    | none =>
      rw [show freqStep p (freq0, u0, sh0) none = (freq0, u0, sh0) from rfl, ih]
      rfl
    | some g =>
      by_cases hg : g.isEmpty
      · rw [show freqStep p (freq0, u0, sh0) (some g) = (freq0, u0, sh0) by
          simp [freqStep, hg], ih]
        congr 1
        cases sh0 <;>
          simp [countMatchedFrom, matchedGrids, firstUsableShape,
            usableGrids_cons_some_empty hg]
      · cases sh0 with
        | none =>
          have hstep : freqStep p (freq0, u0, none) (some g) =
              (((cellsRowMajor (gridShape g).1 (gridShape g).2).filter
                (fun rc => p g rc)).foldl bumpFreq freq0, u0 + 1,
                some (gridShape g)) := by
            simp [freqStep, hg]
          rw [hstep, ih]
          have : countMatchedFrom none (some g :: rest) =
              countMatchedFrom (some (gridShape g)) rest + 1 := by
            simp [countMatchedFrom, matchedGrids, firstUsableShape,
              usableGrids_cons_some hg, List.filter_cons]
          rw [this]
          omega
        | some sh =>
          by_cases hm : gridShape g = sh
          · have hstep : freqStep p (freq0, u0, some sh) (some g) =
                (((cellsRowMajor (gridShape g).1 (gridShape g).2).filter
                  (fun rc => p g rc)).foldl bumpFreq freq0, u0 + 1, some sh) := by
              simp [freqStep, hg, hm]
            rw [hstep, ih]
            have : countMatchedFrom (some sh) (some g :: rest) =
                countMatchedFrom (some sh) rest + 1 := by
              simp [countMatchedFrom, usableGrids_cons_some hg, List.filter_cons, hm]
            rw [this]
            omega
          · have hstep : freqStep p (freq0, u0, some sh) (some g) =
                (freq0, u0, some sh) := by
              simp [freqStep, hg, hm]
            rw [hstep, ih]
            congr 1
            simp [countMatchedFrom, usableGrids_cons_some hg, List.filter_cons, hm]

/-- A usable grid whose shape mismatches the already-fixed reference shape
contributes to the accumulation exactly as much as an absent grid: nothing. -/
theorem fold_freqStep_replace (p : List (List ℤ) → ℕ × ℕ → Bool)
    (pre post : List (Option (List (List ℤ)))) (g : List (List ℤ))
    (sh : ℕ × ℕ) (hpre : firstUsableShape pre = some sh) (hg : ¬ g.isEmpty)
    (hne : gridShape g ≠ sh) :
    (pre ++ some g :: post).foldl (freqStep p) ([], 0, none) =
      (pre ++ none :: post).foldl (freqStep p) ([], 0, none) := by
  rw [List.foldl_append, List.foldl_append, List.foldl_cons, List.foldl_cons]
  set acc := pre.foldl (freqStep p) ([], 0, none) with hacc
  have hshape : acc.2.2 = some sh := by
    rw [hacc]
    calc (pre.foldl (freqStep p) ([], 0, none)).2.2
        = Option.or none (firstUsableShape pre) := fold_freqStep_shape p pre [] 0 none
      _ = some sh := by rw [hpre]; rfl
  have hstep : freqStep p acc (some g) = acc := by
    simp only [freqStep]
    rw [if_neg hg, hshape]
    simp only [Option.getD_some]
    rw [if_pos hne, ← hshape]
  rw [hstep, show freqStep p acc none = acc from rfl]

/-- C6 counterexample: with one session found but no usable grid,
`overwiped_hotspots` does NOT report a failure — it returns a success
result (empty hotspot list, null grid dimensions), contradicting
"all three fail … when zero usable (shape-matched) grids exist". -/
theorem overwipedHotspots_no_usable_counterexample :
    overwipedHotspots [none] 20 3 =
      .ok { sessionsFound := 1, sessionsUsed := 0, gridH := none,
            gridW := none, topOverwiped := [] } ∧
    ∀ e : String, overwipedHotspots [none] 20 3 ≠ .error e := by
  have h : overwipedHotspots [none] 20 3 =
      .ok { sessionsFound := 1, sessionsUsed := 0, gridH := none,
            gridW := none, topOverwiped := [] } := by
    simp [overwipedHotspots, freqStep]
  exact ⟨h, fun e hc => Except.noConfusion (h ▸ hc)⟩

/-- C6 amended: `most_touched` and `most_disregarded` fail both on zero
sessions and on zero usable grids; `overwiped_hotspots` fails only on zero
sessions and returns a success with `sessions_used = 0`, empty hotspots and
null dimensions on zero usable grids. All three report every retrieved
session in `sessions_found` and the shape-matched count in
`sessions_used`, and a usable grid whose shape mismatches the reference
shape contributes exactly as much as an absent grid. -/
theorem roomAgg_amended :
    (∀ (k : ℕ) (t : ℤ),
      mostTouched [] k = .error "no sessions found for room+surface_type" ∧
      mostDisregarded [] k = .error "no sessions found for room+surface_type" ∧
      overwipedHotspots [] k t =
        .error "no sessions found for room+surface_type") ∧
    (∀ (sessions : List (Option (List (List ℤ)))) (k : ℕ) (t : ℤ),
      sessions ≠ [] → usableGrids sessions = [] →
      mostTouched sessions k = .error "no grids found for those sessions" ∧
      mostDisregarded sessions k =
        .error "no missed cells found (or no usable grids)" ∧
      overwipedHotspots sessions k t =
        .ok { sessionsFound := sessions.length, sessionsUsed := 0,
              gridH := none, gridW := none, topOverwiped := [] }) ∧
    (∀ (sessions : List (Option (List (List ℤ)))) (k : ℕ) out,
      mostTouched sessions k = .ok out →
      out.sessionsFound = sessions.length ∧
      out.sessionsUsed = (matchedGrids sessions).length) ∧
    (∀ (sessions : List (Option (List (List ℤ)))) (k : ℕ) out,
      mostDisregarded sessions k = .ok out →
      out.sessionsFound = sessions.length ∧
      out.sessionsUsed = (matchedGrids sessions).length) ∧
    (∀ (sessions : List (Option (List (List ℤ)))) (k : ℕ) (t : ℤ) out,
      overwipedHotspots sessions k t = .ok out →
      out.sessionsFound = sessions.length ∧
      out.sessionsUsed = (matchedGrids sessions).length) ∧
    (∀ (pre post : List (Option (List (List ℤ)))) (g : List (List ℤ))
      (k : ℕ) (sh : ℕ × ℕ),
      firstUsableShape pre = some sh → ¬ g.isEmpty → gridShape g ≠ sh →
      mostTouched (pre ++ some g :: post) k =
        mostTouched (pre ++ none :: post) k ∧
      mostDisregarded (pre ++ some g :: post) k =
        mostDisregarded (pre ++ none :: post) k ∧
      (∀ t : ℤ, overwipedHotspots (pre ++ some g :: post) k t =
        overwipedHotspots (pre ++ none :: post) k t)) := by
  refine ⟨fun k t => ⟨rfl, rfl, rfl⟩, ?_, ?_, ?_, ?_, ?_⟩
  · intro sessions k t hne hug
    have hP : ¬ sessions.isEmpty = true := by
      simpa [List.isEmpty_iff] using hne
    refine ⟨?_, ?_, ?_⟩
    · simp only [mostTouched]
      rw [if_neg hP, hug]
    · simp only [mostDisregarded]
      rw [if_neg hP, fold_freqStep_id _ _ hug]
    · simp only [overwipedHotspots]
      rw [if_neg hP, fold_freqStep_id _ _ hug]
      simp
  · intro sessions k out h
    simp only [mostTouched] at h
    by_cases hse : sessions.isEmpty
    · rw [if_pos hse] at h
      exact Except.noConfusion h
    · rw [if_neg hse] at h
      rcases hu : usableGrids sessions with _ | ⟨g0, rest⟩
      · rw [hu] at h
        exact Except.noConfusion h
      · rw [hu] at h
        simp only [Except.ok.injEq] at h
        rw [← h]
        refine ⟨rfl, ?_⟩
        simp [matchedGrids, firstUsableShape, hu]
  · intro sessions k out h
    simp only [mostDisregarded] at h
    by_cases hse : sessions.isEmpty
    · rw [if_pos hse] at h
      exact Except.noConfusion h
    · rw [if_neg hse] at h
      rcases hst : (sessions.foldl (freqStep (fun G rc => gridAt G rc == 0))
          ([], 0, none)).1 with _ | ⟨hd, tl⟩
      · rw [hst] at h
        exact Except.noConfusion h
      · rw [hst] at h
        simp only [Except.ok.injEq] at h
        rw [← h]
        refine ⟨rfl, ?_⟩
        show (sessions.foldl _ ([], 0, none)).2.1 = _
        rw [fold_freqStep_used]
        simp [countMatchedFrom]
  · intro sessions k t out h
    simp only [overwipedHotspots] at h
    by_cases hse : sessions.isEmpty
    · rw [if_pos hse] at h
      exact Except.noConfusion h
    · rw [if_neg hse] at h
      simp only [Except.ok.injEq] at h
      rw [← h]
      refine ⟨rfl, ?_⟩
      show (sessions.foldl _ ([], 0, none)).2.1 = _
      rw [fold_freqStep_used]
      simp [countMatchedFrom]
  · intro pre post g k sh hpre hg hne
    have hp1 : ¬ (pre ++ some g :: post).isEmpty = true := by
      simp [List.isEmpty_iff]
    have hp2 : ¬ (pre ++ none :: post).isEmpty = true := by
      simp [List.isEmpty_iff]
    have hlen : (pre ++ some g :: post).length = (pre ++ none :: post).length := by
      simp
    obtain ⟨u0, urest, hur⟩ : ∃ u0 urest, usableGrids pre = u0 :: urest := by
      rcases hcase : usableGrids pre with _ | ⟨a, b⟩
      · simp [firstUsableShape, hcase] at hpre
      · exact ⟨a, b, rfl⟩
    have hsh : gridShape u0 = sh := by
      simpa [firstUsableShape, hur] using hpre
    refine ⟨?_, ?_, ?_⟩
    · have h1 : usableGrids (pre ++ some g :: post) =
          u0 :: (urest ++ g :: usableGrids post) := by
        rw [usableGrids_append, hur, usableGrids_cons_some hg]
        simp
      have h2 : usableGrids (pre ++ none :: post) =
          u0 :: (urest ++ usableGrids post) := by
        rw [usableGrids_append, hur, usableGrids_cons_none]
        simp
      simp only [mostTouched]
      rw [if_neg hp1, if_neg hp2, h1, h2]
      have hbeq : (gridShape g == gridShape u0) = false := by
        rw [hsh]
        exact beq_eq_false_iff_ne.mpr hne
      simp only [List.filter_cons, List.filter_append, hbeq, Bool.false_eq_true,
        if_false, hlen]
    · simp only [mostDisregarded]
      rw [if_neg hp1, if_neg hp2,
        fold_freqStep_replace _ pre post g sh hpre hg hne, hlen]
    · intro t
      simp only [overwipedHotspots]
      rw [if_neg hp1, if_neg hp2,
        fold_freqStep_replace _ pre post g sh hpre hg hne, hlen]

/-- Witness for C6's amended theorem: one grid-less session (overwiped
endpoint still succeeds), and a mismatched 2×1 grid contributing like an
absent grid next to a 1×1 reference grid. -/
theorem roomAgg_amended_witness :
    (([none] : List (Option (List (List ℤ)))) ≠ [] ∧
      usableGrids [none] = []) ∧
    overwipedHotspots [none] 1 3 =
      .ok { sessionsFound := 1, sessionsUsed := 0, gridH := none,
            gridW := none, topOverwiped := [] } ∧
    mostTouched ([some [[1]], some [[1], [2]]] : List (Option (List (List ℤ)))) 1 =
      mostTouched [some [[1]], none] 1 := by
  refine ⟨⟨by decide, rfl⟩, ?_, ?_⟩
  · exact (roomAgg_amended.2.1 [none] 1 3 (by decide) rfl).2.2
  · exact (roomAgg_amended.2.2.2.2.2 [some [[1]]] [] [[1], [2]] 1 (1, 1)
      rfl (by decide) (by decide)).1

end Clean
